import Mathlib

/-!
Verification of the schema-bound SQL safety validator (`streamlit_app.py`,
class `Text2SQLSystem`).  The validator core is embedded shallowly:

* `check_unsafe_query` — the lexical Safety Gate (source lines 112–120):
  uppercase the input and scan the fixed deny-list with a word-boundary
  regex `\b KEYWORD \b`.
* `walk` — the token walk of `validate_sql` (source lines 254–272) that
  collects `tables_in_query` and `columns_in_query`.
* `validate_sqlWith` / `validate_sql` — the whole `validate_sql` method
  (source lines 237–312).  Python sets are modelled as insertion-ordered
  duplicate-free lists; the one place where Python's hash-dependent set
  iteration order is observable (joining `invalid_tables` into the
  diagnostic message) is made explicit as the `ord` parameter, and
  `validate_sql` fixes it to `id`.

Third-party `sqlparse` is not part of the repository; its tokenization,
parse-failure condition and `get_type` are modelled from the spec (each
such definition carries a `Modelled from the spec:` doc comment).
-/

namespace Text2SQL

/-- Word characters of the regex `\b` boundary semantics (ASCII model of
Python's `\w`): letters, digits and underscore. -/
def isWordChar (c : Char) : Bool := c.isAlphanum || c == '_'

/-- Model of Python `str.upper()` on a character list (ASCII). -/
def upperChars (s : List Char) : List Char := s.map Char.toUpper

/-- Model of Python `str.upper()` on a string. -/
def upperStr (s : String) : String := ⟨upperChars s.data⟩

/-- Model of Python `str.lower()` on a string. -/
def lowerStr (s : String) : String := ⟨s.data.map Char.toLower⟩

/-- `true` when the character at index `i` is absent (out of range) or is a
non-word character: the regex `\b` boundary condition at that side. -/
def nonWordAt (s : List Char) (i : Nat) : Bool :=
  match s[i]? with
  | none => true
  | some c => !isWordChar c

/-- The regex `\b kw \b` matches `s` at start position `i`. -/
def matchAt (kw s : List Char) (i : Nat) : Bool :=
  kw.isPrefixOf (s.drop i) &&
  (i == 0 || nonWordAt s (i - 1)) &&
  nonWordAt s (i + kw.length)

/-- Model of `re.search(r'\b' + kw + r'\b', s)` succeeding (for a keyword
made of word characters): some start position matches. -/
def wordOccurs (kw s : List Char) : Bool :=
  (List.range (s.length + 1)).any (matchAt kw s)

/-- Declarative reading of a whole-word occurrence: `s` splits as
`pre ++ kw ++ post` with no word character adjacent to `kw` on either
side. -/
def WholeWordIn (kw s : List Char) : Prop :=
  ∃ pre post, s = pre ++ kw ++ post ∧
    (∀ c, pre.getLast? = some c → isWordChar c = false) ∧
    (∀ c, post.head? = some c → isWordChar c = false)

/-- The deny-list `self.unsafe_keywords` (source line 29), in source
order. -/
def unsafe_keywords : List String :=
  ["DELETE", "DROP", "TRUNCATE", "ALTER", "CREATE", "INSERT", "UPDATE"]

/-- The message built at source line 119 for a violating keyword. -/
def unsafeMsg (keyword : String) : String :=
  "DML operations like " ++ keyword ++
    " are not supported. Only SELECT queries are allowed."

/-- Embedding of `Text2SQLSystem.check_unsafe_query` (source lines
112–120): uppercase the query (the `query_upper` local is inlined), return
the first deny-list keyword with a word-boundary match, else report the
query safe. -/
def check_unsafe_query (query : String) : Bool × String :=
  match unsafe_keywords.find? (fun kw => wordOccurs kw.data (upperChars query.data)) with
  | some kw => (false, unsafeMsg kw)
  | none => (true, "Safe query")

/-! ### Token model and the token walk of `validate_sql` -/

/-- Token classes of the flattened `sqlparse` token stream, as inspected by
the source.  The source tests `token.ttype is sqlparse.tokens.Name` and
`token.ttype is sqlparse.tokens.Keyword`; these are identity tests, so the
subtype `Keyword.DML` (e.g. `SELECT`) is distinct from `Keyword`. -/
inductive TokType where
  | Name
  | Keyword
  | DML
  | DDL
  | Whitespace
  | Punctuation
  | Literal
  | Number
  | Operator
deriving DecidableEq

/-- A lexer token: a class and its string value. -/
structure Token where
  ttype : TokType
  value : String
deriving DecidableEq

/-- Python `'.' in token.value`. -/
def hasDot (s : String) : Bool := s.data.contains '.'

/-- Python `token.value.lower().split('.', 1)`: the part before the first
dot and everything after it (used only under a `hasDot` guard). -/
def splitDot (s : String) : String × String :=
  let ls := (lowerStr s).data
  (⟨ls.takeWhile (fun c => c ≠ '.')⟩, ⟨(ls.dropWhile (fun c => c ≠ '.')).drop 1⟩)

/-- Python `set.add` on an insertion-ordered duplicate-free list of
strings. -/
def addS (xs : List String) (x : String) : List String :=
  if xs.contains x then xs else xs ++ [x]

/-- Python `set.add` on an insertion-ordered duplicate-free list of
`(table, column)` pairs. -/
def addP (xs : List (String × String)) (x : String × String) :
    List (String × String) :=
  if xs.contains x then xs else xs ++ [x]

/-- Python `current_token and current_token.value.upper() in l`: the
remembered token exists and its uppercased value is listed. -/
def curValUpperIn (cur : Option Token) (l : List String) : Bool :=
  match cur with
  | some c => l.contains (upperStr c.value)
  | none => false

/-- Embedding of the token walk of `validate_sql` (source lines 254–272).
State: the remaining tokens, `current_token` (set only by `Name`- and
`Keyword`-class tokens), `tables_in_query` and `columns_in_query`.  A
`Name` token after `FROM`/`JOIN` is added (lowercased) to the tables; a
`Name` token containing a dot is split and added to the columns. -/
def walk :
    List Token → Option Token → List String → List (String × String) →
      List String × List (String × String)
  | [], _, tables, cols => (tables, cols)
  | t :: rest, cur, tables, cols =>
    if t.ttype = TokType.Name then
      let st1 :=
        if curValUpperIn cur ["FROM", "JOIN"] then
          (addS tables (lowerStr t.value), cols)
        else if curValUpperIn cur ["SELECT"] then
          (tables, if hasDot t.value then addP cols (splitDot t.value) else cols)
        else (tables, cols)
      let cols2 := if hasDot t.value then addP st1.2 (splitDot t.value) else st1.2
      walk rest (some t) st1.1 cols2
    else if t.ttype = TokType.Keyword then
      walk rest (some t) tables cols
    else
      walk rest cur tables cols

/-! ### Schema model -/

/-- One entry of `self.schema['tables']`: a table name and its
insertion-ordered mapping of column name to description. -/
structure Table where
  table_name : String
  columns : List (String × String)
deriving DecidableEq

/-- Python `next((t for t in self.schema['tables'] if t['table_name'] ==
name), None)` (source lines 286 and 297). -/
def findTable (schema : List Table) (name : String) : Option Table :=
  schema.find? (fun t => t.table_name == name)

/-- Python `', '.join` style joining. -/
def joinWith (sep : String) : List String → String
  | [] => ""
  | [x] => x
  | x :: y :: xs => x ++ sep ++ joinWith sep (y :: xs)

/-- Lexicographic code-point comparison of character lists (the order
Python `sorted` uses on strings). -/
def leChars : List Char → List Char → Bool
  | [], _ => true
  | _ :: _, [] => false
  | a :: as, b :: bs =>
    if a.toNat < b.toNat then true
    else if a.toNat = b.toNat then leChars as bs
    else false

/-- Insert a string into a sorted list of strings. -/
def insertSorted (x : String) : List String → List String
  | [] => [x]
  | y :: ys => if leChars x.data y.data then x :: y :: ys else y :: insertSorted x ys

/-- Python `sorted` on strings (ascending lexicographic code-point
order). -/
def sortStrings : List String → List String
  | [] => []
  | x :: xs => insertSorted x (sortStrings xs)

/-! ### Messages of `validate_sql` -/

/-- Every failure message of `validate_sql` is an f-string beginning with
this prefix. -/
def unsupported (detail : String) : String := "Unsupported Query: " ++ detail

/-- Message of source line 243 (no parsed statement). -/
def parseFailMsg : String := unsupported "Invalid SQL syntax"

/-- Message of source line 249 (statement kind is not `SELECT`). -/
def kindMsg : String :=
  unsupported ("Only SELECT queries are supported. DML operations " ++
    "(INSERT, UPDATE, DELETE) are not allowed.")

/-- Message of source line 279 (unknown tables), given the rendering order
of `invalid_tables` and the sorted valid table names. -/
def tablesMsg (invalid sortedValid : List String) : String :=
  unsupported ("Table(s) '" ++ joinWith ", " invalid ++
    "' do not exist in the database schema. Available tables: " ++
    joinWith ", " sortedValid)

/-- Message of source line 302 (unknown columns). -/
def columnsMsg (invalidCols infos : List String) : String :=
  unsupported ("Column(s) '" ++ joinWith ", " invalidCols ++
    "' do not exist in the schema. Available columns: " ++
    joinWith "; " infos)

/-- One iteration of the column-check loop (source lines 283–290): when
the pair's table exists, append `"table.column"` to the accumulator if the
column is not among that table's columns. -/
def colStep (schema : List Table) (validT : List String)
    (acc : List String) (tc : String × String) : List String :=
  if validT.contains tc.1 then
    match findTable schema tc.1 with
    | some ti =>
      if (ti.columns.map Prod.fst).contains tc.2 then acc
      else acc ++ [tc.1 ++ "." ++ tc.2]
    | none => acc
  else acc

/-- Embedding of the column-check loop (source lines 282–290): fold
`colStep` over the collected `(table, column)` pairs. -/
def invalidColumnsOf (schema : List Table) (validT : List String)
    (cols : List (String × String)) : List String :=
  cols.foldl (colStep schema validT) []

/-- A qualified column pair resolves against the schema: its table is
found and lists the column. -/
def resolves (schema : List Table) (p : String × String) : Bool :=
  match findTable schema p.1 with
  | some ti => (ti.columns.map Prod.fst).contains p.2
  | none => false

/-- Embedding of the diagnostic loop (source lines 294–300): for each
invalid `"table.column"` string, look the table part up and render
`"name table: col1, col2, ..."`. -/
def tableColumnsInfo (schema : List Table) (invalidCols : List String) :
    List String :=
  invalidCols.foldl (fun acc ic =>
    let tname : String := ⟨ic.data.takeWhile (fun c => c ≠ '.')⟩
    match findTable schema tname with
    | some ti =>
      acc ++ [tname ++ " table: " ++ joinWith ", " (ti.columns.map Prod.fst)]
    | none => acc) []

/-! ### Spec-modelled parser front end (`sqlparse` is not in the repo) -/

/-- Modelled from the spec: the DML statement-kind keywords of §3
(`Select`, `Insert`, `Update`, `Delete`), as `sqlparse` keyword classes. -/
def dml_keywords : List String := ["SELECT", "INSERT", "UPDATE", "DELETE"]

/-- Modelled from the spec: the DDL statement-kind keywords of §3
(`Create`, `Drop`, `Alter`, `Truncate`). -/
def ddl_keywords : List String := ["CREATE", "DROP", "TRUNCATE", "ALTER"]

/-- Modelled from the spec: plain SQL keywords recognised by the lexer
(the spec's token walk relies on `FROM`/`JOIN` being `Keyword`-class
tokens). -/
def plain_keywords : List String :=
  ["FROM", "JOIN", "WHERE", "ON", "AND", "OR", "ORDER", "BY", "GROUP",
   "AS", "SET", "INTO", "VALUES", "NOT", "NULL", "IN", "LIKE"]

/-- Characters that may form an identifier run; per the spec's column
extraction (§4.3), a `table.column` reference is one `Name`-class token
containing the `.` separator, so `.` is part of a run. -/
def isWordish (c : Char) : Bool := isWordChar c || c == '.'

/-- Modelled from the spec: classify one identifier-like run into the
keyword classes of §3/§4.3 (statement-kind keywords, plain keywords,
numbers, names). -/
def classifyWord (w : String) : Token :=
  let u := upperStr w
  if dml_keywords.contains u then ⟨TokType.DML, w⟩
  else if ddl_keywords.contains u then ⟨TokType.DDL, w⟩
  else if plain_keywords.contains u then ⟨TokType.Keyword, w⟩
  else if w.data.all (fun c => c.isDigit || c == '.') then ⟨TokType.Number, w⟩
  else ⟨TokType.Name, w⟩

/-- Modelled from the spec: the lexer of §4.3 — whitespace runs,
identifier runs (dotted references as single `Name`-class tokens),
single-quoted string literals, and single-character punctuation.  The
`Nat` argument is recursion fuel, always called with at least the input
length. -/
def tokenizeAux : Nat → List Char → List Token
  | 0, _ => []
  | _ + 1, [] => []
  | fuel + 1, c :: cs =>
    if c.isWhitespace then
      ⟨TokType.Whitespace, ⟨(c :: cs).takeWhile Char.isWhitespace⟩⟩ ::
        tokenizeAux fuel ((c :: cs).dropWhile Char.isWhitespace)
    else if isWordish c then
      classifyWord ⟨(c :: cs).takeWhile isWordish⟩ ::
        tokenizeAux fuel ((c :: cs).dropWhile isWordish)
    else if c = '\'' then
      ⟨TokType.Literal, ⟨'\'' :: (cs.takeWhile (fun d => d ≠ '\'') ++ ['\''])⟩⟩ ::
        tokenizeAux fuel ((cs.dropWhile (fun d => d ≠ '\'')).drop 1)
    else
      ⟨TokType.Punctuation, ⟨[c]⟩⟩ :: tokenizeAux fuel cs

/-- Modelled from the spec: tokenization of a raw SQL string (§4.3). -/
def tokenize (s : String) : List Token := tokenizeAux s.data.length s.data

/-- Single quotes come in pairs. -/
def quotesBalanced (s : String) : Bool := (s.data.count '\'') % 2 == 0

/-- Parentheses are balanced and never close below depth zero. -/
def parensDepth : List Char → Nat → Bool
  | [], d => d == 0
  | c :: cs, d =>
    if c = '(' then parensDepth cs (d + 1)
    else if c = ')' then
      match d with
      | 0 => false
      | d' + 1 => parensDepth cs d'
    else parensDepth cs d

/-- Modelled from the spec: `sqlparse.parse` (source line 241) yields no
statement exactly when the input is empty after trimming or lexically
invalid (unbalanced quotes or parentheses, §4.3); otherwise it yields the
token stream. -/
def parse (sql : String) : Option (List Token) :=
  if sql.data.all Char.isWhitespace ∨ quotesBalanced sql = false ∨
      parensDepth sql.data 0 = false then none
  else some (tokenize sql)

/-- Modelled from the spec: `statement.get_type()` (source line 248) — the
statement kind is the leading keyword of the statement (§4.3); a statement
not led by a statement-kind keyword is `UNKNOWN`. -/
def get_type (toks : List Token) : String :=
  match toks.find? (fun t => t.ttype ≠ TokType.Whitespace) with
  | some t =>
    if t.ttype = TokType.DML ∨ t.ttype = TokType.DDL then upperStr t.value
    else "UNKNOWN"
  | none => "UNKNOWN"

/-! ### The validator -/

/-- The `tables_in_query` local of `validate_sql` (source lines 252–272):
tables collected by the token walk. -/
def tables_in_query (toks : List Token) : List String :=
  (walk toks none [] []).1

/-- The `columns_in_query` local of `validate_sql`: qualified column
pairs collected by the token walk. -/
def columns_in_query (toks : List Token) : List (String × String) :=
  (walk toks none [] []).2

/-- The `valid_tables` local (source line 275): the schema's table
names. -/
def valid_tables (schema : List Table) : List String :=
  schema.map Table.table_name

/-- The `invalid_tables` local (source line 276): collected tables absent
from the schema. -/
def invalid_tables (schema : List Table) (toks : List Token) : List String :=
  (tables_in_query toks).filter (fun t => !(valid_tables schema).contains t)

/-- The `invalid_columns` local (source lines 282–290). -/
def invalid_columns (schema : List Table) (toks : List Token) : List String :=
  invalidColumnsOf schema (valid_tables schema) (columns_in_query toks)

/-- Embedding of the body of `validate_sql` after a successful parse
(source lines 247–309), over an explicit token stream.  `ord` renders the
iteration order of the Python set `invalid_tables` at the `', '.join` of
line 279; everything else is order-independent or insertion-ordered. -/
def validateToks (ord : List String → List String) (sql_query : String)
    (schema : List Table) (toks : List Token) : Bool × String :=
  if get_type toks ≠ "SELECT" then (false, kindMsg)
  else if invalid_tables schema toks ≠ [] then
    (false, tablesMsg (ord (invalid_tables schema toks))
      (sortStrings (valid_tables schema)))
  else if invalid_columns schema toks ≠ [] then
    (false, columnsMsg (invalid_columns schema toks)
      (tableColumnsInfo schema (invalid_columns schema toks)))
  else if (check_unsafe_query sql_query).1 = false then
    (false, unsupported (check_unsafe_query sql_query).2)
  else (true, "Valid SQL query")

/-- Embedding of `Text2SQLSystem.validate_sql` (source lines 237–312),
with the set-iteration order of `invalid_tables` as the explicit
parameter `ord`. -/
def validate_sqlWith (ord : List String → List String) (sql_query : String)
    (schema : List Table) : Bool × String :=
  match parse sql_query with
  | none => (false, parseFailMsg)
  | some toks => validateToks ord sql_query schema toks

/-- `validate_sql` with the identity (insertion-order) rendering of
`invalid_tables`: the behaviour of one fixed program run. -/
def validate_sql (sql_query : String) (schema : List Table) : Bool × String :=
  validate_sqlWith id sql_query schema

/-- Modelled from the spec: the schema instance of §8 — `users(user_id,
name)` and `incidents(incident_id, user_id, status)` (the JSON schema file
is not part of src/; column descriptions are unused by the validator). -/
def usersTable : Table := ⟨"users", [("user_id", ""), ("name", "")]⟩

/-- Modelled from the spec: the `incidents` table of §8. -/
def incidentsTable : Table :=
  ⟨"incidents", [("incident_id", ""), ("user_id", ""), ("status", "")]⟩

/-- The two-table schema instance of §8. -/
def schema0 : List Table := [usersTable, incidentsTable]

/-! ### Helper lemmas -/

/-- Substring occurrence (without word boundaries), used to state that a
diagnostic message does not mention a name. -/
def substrOccurs (kw s : List Char) : Bool :=
  (List.range (s.length + 1)).any (fun i => kw.isPrefixOf (s.drop i))

theorem nonWordAt_some {s : List Char} {n : Nat} {c : Char}
    (h : nonWordAt s n = true) (hc : s[n]? = some c) : isWordChar c = false := by
  unfold nonWordAt at h
  rw [hc] at h
  simpa using h

theorem nonWordAt_of_none {s : List Char} {n : Nat} (h : s[n]? = none) :
    nonWordAt s n = true := by
  unfold nonWordAt
  rw [h]

theorem nonWordAt_of_some {s : List Char} {n : Nat} {c : Char}
    (hc : s[n]? = some c) (h : isWordChar c = false) : nonWordAt s n = true := by
  unfold nonWordAt
  rw [hc]
  simpa using h

/-- The scanning definition of a word-boundary match agrees with the
declarative decomposition `s = pre ++ kw ++ post` with non-word characters
adjacent to `kw`. -/
theorem wordOccurs_iff {kw s : List Char} :
    wordOccurs kw s = true ↔ WholeWordIn kw s := by
  constructor
  · intro h
    unfold wordOccurs at h
    rw [List.any_eq_true] at h
    obtain ⟨i, hi, hm⟩ := h
    rw [List.mem_range] at hi
    unfold matchAt at hm
    simp only [Bool.and_eq_true, Bool.or_eq_true, beq_iff_eq] at hm
    obtain ⟨⟨hpre, hb1⟩, hb2⟩ := hm
    rw [List.isPrefixOf_iff_prefix] at hpre
    obtain ⟨post, hpost⟩ := hpre
    refine ⟨s.take i, post, ?_, ?_, ?_⟩
    · conv_lhs => rw [← List.take_append_drop i s, ← hpost]
      rw [List.append_assoc]
    · intro c hc
      cases i with
      | zero => simp at hc
      | succ j =>
        have hj : nonWordAt s j = true := by
          rcases hb1 with h0 | hnw
          · omega
          · simpa using hnw
        have hlen : (s.take (j + 1)).length = j + 1 := by
          rw [List.length_take]
          omega
        have hgl : (s.take (j + 1)).getLast? = s[j]? := by
          rw [List.getLast?_eq_getElem?, hlen]
          simp only [Nat.add_sub_cancel]
          exact List.getElem?_take_of_lt (Nat.lt_succ_self j)
        exact nonWordAt_some hj (by rw [← hgl, hc])
    · intro c hc
      have h1 : s[i + kw.length]? = post[0]? := by
        rw [← List.getElem?_drop, ← hpost,
          List.getElem?_append_right (Nat.le_refl _), Nat.sub_self]
      have h2 : post[0]? = some c := by
        rw [← List.head?_eq_getElem?]
        exact hc
      exact nonWordAt_some hb2 (by rw [h1, h2])
  · rintro ⟨pre, post, rfl, hpre, hpost⟩
    unfold wordOccurs
    rw [List.any_eq_true]
    simp only [List.append_assoc]
    refine ⟨pre.length, ?_, ?_⟩
    · rw [List.mem_range]
      simp only [List.length_append]
      omega
    · unfold matchAt
      simp only [Bool.and_eq_true, Bool.or_eq_true, beq_iff_eq]
      have hdrop : (pre ++ (kw ++ post)).drop pre.length = kw ++ post :=
        List.drop_left pre (kw ++ post)
      refine ⟨⟨?_, ?_⟩, ?_⟩
      · rw [List.isPrefixOf_iff_prefix, hdrop]
        exact List.prefix_append kw post
      · by_cases hpe : pre = []
        · left
          subst hpe
          rfl
        · right
          obtain ⟨c, hc⟩ : ∃ c, pre.getLast? = some c := by
            cases h' : pre.getLast? with
            | none => exact absurd (List.getLast?_eq_none_iff.mp h') hpe
            | some c => exact ⟨c, rfl⟩
          have hlt : pre.length - 1 < pre.length := by
            have hne : pre ≠ [] := hpe
            have : 0 < pre.length := List.length_pos.mpr hne
            omega
          have h1 : (pre ++ (kw ++ post))[pre.length - 1]? = pre[pre.length - 1]? :=
            List.getElem?_append_left hlt
          have h2 : pre[pre.length - 1]? = some c := by
            rw [← List.getLast?_eq_getElem?]
            exact hc
          exact nonWordAt_of_some (by rw [h1, h2]) (hpre c hc)
      · have h1 : (pre ++ (kw ++ post))[pre.length + kw.length]? = post[0]? := by
          rw [List.getElem?_append_right (by omega : pre.length ≤ pre.length + kw.length),
            Nat.add_sub_cancel_left,
            List.getElem?_append_right (Nat.le_refl _), Nat.sub_self]
        cases hp0 : post[0]? with
        | none => exact nonWordAt_of_none (by rw [h1, hp0])
        | some c =>
          have hh : post.head? = some c := by
            rw [List.head?_eq_getElem?]
            exact hp0
          exact nonWordAt_of_some (by rw [h1, hp0]) (hpost c hh)

/-- A successful `find?` returns a satisfying element, and everything
listed before it fails the predicate. -/
theorem find?_eq_some_split {α : Type} {p : α → Bool} {l : List α} {x : α}
    (h : l.find? p = some x) :
    p x = true ∧ ∃ l₁ l₂, l = l₁ ++ x :: l₂ ∧ ∀ y ∈ l₁, p y = false := by
  induction l with
  | nil => simp at h
  | cons a l ih =>
    rw [List.find?_cons] at h
    cases hpa : p a with
    | true =>
      rw [hpa] at h
      simp only [cond_true, Option.some.injEq] at h
      subst h
      exact ⟨hpa, [], l, rfl, by simp⟩
    | false =>
      rw [hpa] at h
      simp only [cond_false] at h
      obtain ⟨hp, l₁, l₂, rfl, hall⟩ := ih h
      refine ⟨hp, a :: l₁, l₂, rfl, ?_⟩
      intro y hy
      rcases List.mem_cons.mp hy with rfl | hy'
      · exact hpa
      · exact hall y hy'

/-- Every deny-list keyword is a nonempty string. -/
theorem unsafe_keywords_ne_nil : ∀ kw ∈ unsafe_keywords, kw.data ≠ [] := by
  decide

/-- A `set.add` contains the added element. -/
theorem mem_addP_self (xs : List (String × String)) (x : String × String) :
    x ∈ addP xs x := by
  unfold addP
  split
  · next h => exact List.elem_iff.mp h
  · exact List.mem_append_right _ (List.mem_singleton.mpr rfl)

/-- A `set.add` keeps every previous element. -/
theorem mem_addP_of_mem {xs : List (String × String)} {y : String × String}
    (x : String × String) (h : y ∈ xs) : y ∈ addP xs x := by
  unfold addP
  split
  · exact h
  · exact List.mem_append_left _ h

/-- The column accumulator of the token walk only grows. -/
theorem walk_cols_mono :
    ∀ (toks : List Token) (cur : Option Token) (ts : List String)
      (cs : List (String × String)) {p : String × String},
      p ∈ cs → p ∈ (walk toks cur ts cs).2 := by
  intro toks
  induction toks with
  | nil =>
    intro cur ts cs p hp
    exact hp
  | cons t rest ih =>
    intro cur ts cs p hp
    simp only [walk]
    repeat' split
    all_goals
      exact ih _ _ _ (by repeat' first | exact hp | apply mem_addP_of_mem)

/-- Every `Name`-class token whose value contains a dot contributes its
split, lowercased pair to the collected columns, wherever it sits in the
stream and whatever the walk state is. -/
theorem walk_cols_mem :
    ∀ (toks : List Token) (cur : Option Token) (ts : List String)
      (cs : List (String × String)) (t : Token),
      t ∈ toks → t.ttype = TokType.Name → hasDot t.value = true →
      splitDot t.value ∈ (walk toks cur ts cs).2 := by
  intro toks
  induction toks with
  | nil =>
    intro cur ts cs t ht
    simp at ht
  | cons a rest ih =>
    intro cur ts cs t ht h1 h2
    rcases List.mem_cons.mp ht with rfl | ht'
    · simp only [walk, h1, h2, if_true, if_pos]
      exact walk_cols_mono rest _ _ _ (mem_addP_self _ _)
    · simp only [walk]
      repeat' split
      all_goals exact ih _ _ _ _ ht' h1 h2

/-- When every collected pair resolves (its table is found and carries the
column), the column-check fold leaves the accumulator unchanged. -/
theorem foldl_colStep_eq (schema : List Table) (validT : List String) :
    ∀ (cols : List (String × String)) (acc : List String),
      (∀ p ∈ cols, resolves schema p = true) →
      cols.foldl (colStep schema validT) acc = acc := by
  intro cols
  induction cols with
  | nil =>
    intro acc _
    rfl
  | cons p cols ih =>
    intro acc h
    have hstep : colStep schema validT acc p = acc := by
      have h' := h p (List.mem_cons_self p cols)
      unfold resolves at h'
      unfold colStep
      cases hft : findTable schema p.1 with
      | none =>
        rw [hft] at h'
        simp at h'
      | some ti =>
        rw [hft] at h'
        split
        · dsimp only
          rw [if_pos h']
        · rfl
    rw [List.foldl_cons, hstep]
    exact ih acc (fun q hq => h q (List.mem_cons_of_mem _ hq))

/-- When every collected table is a schema table, `invalid_tables` is
empty. -/
theorem invalid_tables_eq_nil {schema : List Table} {toks : List Token}
    (h : ∀ t ∈ tables_in_query toks, (valid_tables schema).contains t = true) :
    invalid_tables schema toks = [] := by
  unfold invalid_tables
  rw [List.filter_eq_nil_iff]
  intro a ha
  rw [h a ha]
  simp

/-- When every collected pair resolves, `invalid_columns` is empty. -/
theorem invalid_columns_eq_nil {schema : List Table} {toks : List Token}
    (h : ∀ p ∈ columns_in_query toks, resolves schema p = true) :
    invalid_columns schema toks = [] := by
  unfold invalid_columns invalidColumnsOf
  exact foldl_colStep_eq schema (valid_tables schema) _ [] h

/-! ### Claim theorems -/

/-- C4: `check_unsafe_query` returns unsafe exactly when some deny-list
keyword occurs as a whole word in the uppercased input; a keyword embedded
in a longer identifier (`updated_on`) does not match; on several matches
the reported keyword is the earliest in deny-list order (everything listed
before it fails to occur), not necessarily the earliest in the string
(`UPDATE x DELETE` reports `DELETE`). -/
theorem C4_safety_gate_denylist :
    (∀ q : String, (check_unsafe_query q).1 = false ↔
        ∃ kw ∈ unsafe_keywords, WholeWordIn kw.data (upperChars q.data)) ∧
    (∀ q kw : String,
        unsafe_keywords.find? (fun k => wordOccurs k.data (upperChars q.data)) = some kw →
        check_unsafe_query q = (false, unsafeMsg kw) ∧
          ∃ l₁ l₂, unsafe_keywords = l₁ ++ kw :: l₂ ∧
            ∀ j ∈ l₁, ¬ WholeWordIn j.data (upperChars q.data)) ∧
    check_unsafe_query "SELECT updated_on FROM users" = (true, "Safe query") ∧
    check_unsafe_query "UPDATE x DELETE" = (false, unsafeMsg "DELETE") := by
  refine ⟨?_, ?_, by decide, by decide⟩
  · intro q
    constructor
    · intro h
      unfold check_unsafe_query at h
      rcases hf : unsafe_keywords.find? (fun kw => wordOccurs kw.data (upperChars q.data))
        with _ | kw
      · rw [hf] at h
        simp at h
      · refine ⟨kw, List.mem_of_find?_eq_some hf, wordOccurs_iff.mp ?_⟩
        simpa using List.find?_some hf
    · rintro ⟨kw, hmem, hww⟩
      unfold check_unsafe_query
      rcases hf : unsafe_keywords.find? (fun kw => wordOccurs kw.data (upperChars q.data))
        with _ | kw'
      · exact absurd (wordOccurs_iff.mpr hww) (by simpa using List.find?_eq_none.mp hf kw hmem)
      · rw [hf]
  · intro q kw hf
    refine ⟨?_, ?_⟩
    · unfold check_unsafe_query
      rw [hf]
    · obtain ⟨_, l₁, l₂, heq, hall⟩ := find?_eq_some_split hf
      refine ⟨l₁, l₂, heq, fun j hj hww => ?_⟩
      exact absurd (wordOccurs_iff.mpr hww) (by simpa using hall j hj)

/-- C4 witness: instantiating the first-match part at `DROP TABLE
accounts` reports `DROP` with `DELETE` (listed before it) not occurring. -/
theorem C4_safety_gate_denylist_witness :
    check_unsafe_query "DROP TABLE accounts" = (false, unsafeMsg "DROP") ∧
      ∃ l₁ l₂, unsafe_keywords = l₁ ++ "DROP" :: l₂ ∧
        ∀ j ∈ l₁, ¬ WholeWordIn j.data (upperChars ("DROP TABLE accounts" : String).data) :=
  C4_safety_gate_denylist.2.1 "DROP TABLE accounts" "DROP" (by decide)

/-- C5: whenever the parsed statement kind is not `SELECT`, `validate_sql`
returns the unsafe verdict (`only SELECT statements are permitted`),
before any table or column is checked. -/
theorem C5_non_select_rejected (sql : String) (schema : List Table)
    (toks : List Token) (hp : parse sql = some toks)
    (hk : get_type toks ≠ "SELECT") :
    validate_sql sql schema = (false, kindMsg) := by
  unfold validate_sql validate_sqlWith
  rw [hp]
  dsimp only
  unfold validateToks
  rw [if_pos hk]

/-- C5 witness: `DELETE FROM users WHERE user_id = 1` parses with kind
`DELETE` and is rejected with the statement-kind message. -/
theorem C5_non_select_rejected_witness :
    validate_sql "DELETE FROM users WHERE user_id = 1" schema0 = (false, kindMsg) :=
  C5_non_select_rejected _ schema0
    (tokenize "DELETE FROM users WHERE user_id = 1") (by decide) (by decide)

/-- C7: inputs that are empty after trimming or lexically invalid
(unbalanced quotes or parentheses) fail with the parse-error verdict and
no other. -/
theorem C7_parse_failure_verdict (sql : String) (schema : List Table)
    (h : sql.data.all Char.isWhitespace = true ∨ quotesBalanced sql = false ∨
      parensDepth sql.data 0 = false) :
    validate_sql sql schema = (false, parseFailMsg) := by
  unfold validate_sql validate_sqlWith
  have hp : parse sql = none := by
    unfold parse
    rw [if_pos h]
  rw [hp]

/-- C7 witness: the empty input yields the parse-error verdict. -/
theorem C7_parse_failure_verdict_witness :
    validate_sql "" schema0 = (false, parseFailMsg) :=
  C7_parse_failure_verdict "" schema0 (Or.inl (by decide))

/-- C9: on every input string and schema, `validate_sql` terminates with
exactly one verdict-shaped result: either the success pair or a failure
pair whose message carries the `Unsupported Query: ` prefix (the Lean
embedding is a total function, mirroring the `try`/`except` wrapper that
converts any fault into the failure pair). -/
theorem C9_always_one_verdict (sql : String) (schema : List Table) :
    validate_sql sql schema = (true, "Valid SQL query") ∨
      ∃ d, validate_sql sql schema = (false, unsupported d) := by
  unfold validate_sql validate_sqlWith
  cases hp : parse sql with
  | none => exact Or.inr ⟨"Invalid SQL syntax", rfl⟩
  | some toks =>
    dsimp only
    unfold validateToks
    by_cases h1 : get_type toks ≠ "SELECT"
    · rw [if_pos h1]
      exact Or.inr ⟨_, rfl⟩
    · rw [if_neg h1]
      by_cases h2 : invalid_tables schema toks ≠ []
      · rw [if_pos h2]
        exact Or.inr ⟨_, rfl⟩
      · rw [if_neg h2]
        by_cases h3 : invalid_columns schema toks ≠ []
        · rw [if_pos h3]
          exact Or.inr ⟨_, rfl⟩
        · rw [if_neg h3]
          by_cases h4 : (check_unsafe_query sql).1 = false
          · rw [if_pos h4]
            exact Or.inr ⟨_, rfl⟩
          · rw [if_neg h4]
            exact Or.inl rfl

/-- C1 counterexample: `DELETE FROM users WHERE user_id = 1` is rejected
by the Safety Gate, yet the pipeline's terminal result is the parser-side
statement-kind message, not the gate's verdict (verbatim or wrapped): the
gate does not run first and does not short-circuit. -/
theorem C1_counterexample_gate_not_first :
    (check_unsafe_query "DELETE FROM users WHERE user_id = 1").1 = false ∧
    validate_sql "DELETE FROM users WHERE user_id = 1" schema0 = (false, kindMsg) ∧
    kindMsg ≠ (check_unsafe_query "DELETE FROM users WHERE user_id = 1").2 ∧
    kindMsg ≠ unsupported (check_unsafe_query "DELETE FROM users WHERE user_id = 1").2 := by
  refine ⟨by decide, ?_, by decide, by decide⟩
  decide

/-- C1 amended: the Safety Gate is the last stage of `validate_sql`, after
the parser, the statement-kind check and both schema checks; when all of
those pass and the gate rejects, its message is returned wrapped in the
`Unsupported Query: ` prefix. -/
theorem C1_gate_runs_last (sql : String) (schema : List Table)
    (toks : List Token) (hp : parse sql = some toks)
    (hk : get_type toks = "SELECT")
    (ht : invalid_tables schema toks = [])
    (hc : invalid_columns schema toks = [])
    (hg : (check_unsafe_query sql).1 = false) :
    validate_sql sql schema = (false, unsupported (check_unsafe_query sql).2) := by
  unfold validate_sql validate_sqlWith
  rw [hp]
  dsimp only
  unfold validateToks
  rw [if_neg (by simp [hk]), if_neg (by simp [ht]), if_neg (by simp [hc]), if_pos hg]

/-- C1 witness: `SELECT name FROM users WHERE name = 'DELETE'` passes
parsing, the kind check and both schema checks, and the gate's rejection
is then returned as the terminal result. -/
theorem C1_gate_runs_last_witness :
    validate_sql "SELECT name FROM users WHERE name = 'DELETE'" schema0 =
      (false, unsupported
        (check_unsafe_query "SELECT name FROM users WHERE name = 'DELETE'").2) :=
  C1_gate_runs_last _ schema0
    (tokenize "SELECT name FROM users WHERE name = 'DELETE'")
    (by decide) (by decide) (by decide) (by decide) (by decide)

/-- C3 counterexample: `SELECT users.removed_flag FROM tickets` references
the absent table `tickets` and, on the present table `users`, the absent
column `removed_flag`; the returned verdict names only the invalid table
and its message does not mention the invalid column at all. -/
theorem C3_counterexample_only_table_reported :
    tables_in_query (tokenize "SELECT users.removed_flag FROM tickets") = ["tickets"] ∧
    columns_in_query (tokenize "SELECT users.removed_flag FROM tickets") =
      [("users", "removed_flag")] ∧
    (valid_tables schema0).contains "tickets" = false ∧
    (valid_tables schema0).contains "users" = true ∧
    resolves schema0 ("users", "removed_flag") = false ∧
    validate_sql "SELECT users.removed_flag FROM tickets" schema0 =
      (false, tablesMsg ["tickets"] ["incidents", "users"]) ∧
    substrOccurs "removed_flag".data
      (validate_sql "SELECT users.removed_flag FROM tickets" schema0).2.data = false := by
  refine ⟨by decide, by decide, by decide, by decide, by decide, ?_, by decide⟩
  decide

/-- C3 amended: whenever any collected table is invalid, `validate_sql`
returns the invalid-table diagnostic alone; the column check is never
reached, so an invalid column on a different valid table is not surfaced
in that verdict. -/
theorem C3_table_check_shortcircuits (sql : String) (schema : List Table)
    (toks : List Token) (hp : parse sql = some toks)
    (hk : get_type toks = "SELECT")
    (ht : invalid_tables schema toks ≠ []) :
    validate_sql sql schema =
      (false, tablesMsg (invalid_tables schema toks)
        (sortStrings (valid_tables schema))) := by
  unfold validate_sql validate_sqlWith
  rw [hp]
  dsimp only
  unfold validateToks
  rw [if_neg (by simp [hk]), if_pos ht]
  rfl

/-- C3 witness: the short-circuit instantiated at the counterexample
input. -/
theorem C3_table_check_shortcircuits_witness :
    validate_sql "SELECT users.removed_flag FROM tickets" schema0 =
      (false, tablesMsg
        (invalid_tables schema0 (tokenize "SELECT users.removed_flag FROM tickets"))
        (sortStrings (valid_tables schema0))) :=
  C3_table_check_shortcircuits _ schema0
    (tokenize "SELECT users.removed_flag FROM tickets")
    (by decide) (by decide) (by decide)

/-- C6 counterexample: `SELECT name FROM users WHERE name = 'DELETE'` is a
SELECT statement whose referenced tables are all schema tables and whose
qualified columns (none) all resolve, yet `validate_sql` does not return
the valid verdict: the in-validator Safety Gate rejects the raw string. -/
theorem C6_counterexample_gate_blocks_valid_select :
    get_type (tokenize "SELECT name FROM users WHERE name = 'DELETE'") = "SELECT" ∧
    (∀ t ∈ tables_in_query (tokenize "SELECT name FROM users WHERE name = 'DELETE'"),
      (valid_tables schema0).contains t = true) ∧
    (∀ p ∈ columns_in_query (tokenize "SELECT name FROM users WHERE name = 'DELETE'"),
      resolves schema0 p = true) ∧
    validate_sql "SELECT name FROM users WHERE name = 'DELETE'" schema0 ≠
      (true, "Valid SQL query") := by
  refine ⟨by decide, by decide, by decide, ?_⟩
  decide

/-- C6 amended: a parsed SELECT statement whose referenced tables all
exist, whose qualified columns all resolve, and whose raw string passes
the Safety Gate is validated as a valid SQL query. -/
theorem C6_valid_select_needs_gate (sql : String) (schema : List Table)
    (toks : List Token) (hp : parse sql = some toks)
    (hk : get_type toks = "SELECT")
    (ht : ∀ t ∈ tables_in_query toks, (valid_tables schema).contains t = true)
    (hc : ∀ p ∈ columns_in_query toks, resolves schema p = true)
    (hg : (check_unsafe_query sql).1 = true) :
    validate_sql sql schema = (true, "Valid SQL query") := by
  unfold validate_sql validate_sqlWith
  rw [hp]
  dsimp only
  unfold validateToks
  rw [if_neg (by simp [hk]), if_neg (by simp [invalid_tables_eq_nil ht]),
    if_neg (by simp [invalid_columns_eq_nil hc]), if_neg (by simp [hg])]

/-- C6 witness: `SELECT * FROM users` satisfies all hypotheses and is
accepted. -/
theorem C6_valid_select_needs_gate_witness :
    validate_sql "SELECT * FROM users" schema0 = (true, "Valid SQL query") :=
  C6_valid_select_needs_gate _ schema0 (tokenize "SELECT * FROM users")
    (by decide) (by decide) (by decide) (by decide) (by decide)

/-- C2: every `Name`-class token containing a dot, anywhere in the stream,
is split at the first dot, lowercased and collected into the qualified
columns; concretely, `SELECT users.removed_flag FROM users` against the
`users(user_id, name)` schema yields the schema-violation verdict naming
`(users, removed_flag)` as invalid and listing `users`' columns
`user_id, name` as the available alternatives. -/
theorem C2_dotted_name_columns :
    (∀ (toks : List Token) (cur : Option Token) (ts : List String)
        (cs : List (String × String)) (t : Token),
        t ∈ toks → t.ttype = TokType.Name → hasDot t.value = true →
        splitDot t.value ∈ (walk toks cur ts cs).2) ∧
    splitDot "users.removed_flag" = ("users", "removed_flag") ∧
    columns_in_query (tokenize "SELECT users.removed_flag FROM users") =
      [("users", "removed_flag")] ∧
    validate_sql "SELECT users.removed_flag FROM users" schema0 =
      (false, columnsMsg ["users.removed_flag"] ["users table: user_id, name"]) := by
  refine ⟨walk_cols_mem, by decide, by decide, ?_⟩
  decide

/-- C2 witness: the general collection statement instantiated at the
dotted token of the concrete stream. -/
theorem C2_dotted_name_columns_witness :
    ("users", "removed_flag") ∈
      (walk (tokenize "SELECT users.removed_flag FROM users") none [] []).2 := by
  have h := C2_dotted_name_columns.1
    (tokenize "SELECT users.removed_flag FROM users") none [] []
    ⟨TokType.Name, "users.removed_flag"⟩ (by decide) (by decide) (by decide)
  rw [show splitDot "users.removed_flag" = ("users", "removed_flag") by decide] at h
  exact h

/-- C10: a `Name` token is added to the referenced tables only when the
most recent `Name`- or `Keyword`-class token is exactly `FROM` or `JOIN`
(first two parts); consequently, a table following a compound join keyword
lexed as one token (`LEFT JOIN`) is never collected, and in a
comma-separated `FROM` list only the first table is collected (last two
parts). -/
theorem C10_tables_after_bare_from_join :
    (∀ (v : String) (rest : List Token) (cur : Option Token)
        (ts : List String) (cs : List (String × String)),
        curValUpperIn cur ["FROM", "JOIN"] = false →
        ∃ cs', walk (⟨TokType.Name, v⟩ :: rest) cur ts cs =
          walk rest (some ⟨TokType.Name, v⟩) ts cs') ∧
    (∀ (v : String) (rest : List Token) (cur : Option Token)
        (ts : List String) (cs : List (String × String)),
        curValUpperIn cur ["FROM", "JOIN"] = true →
        ∃ cs', walk (⟨TokType.Name, v⟩ :: rest) cur ts cs =
          walk rest (some ⟨TokType.Name, v⟩) (addS ts (lowerStr v)) cs') ∧
    (∀ (v : String) (rest : List Token) (cur : Option Token)
        (ts : List String) (cs : List (String × String)),
        hasDot v = false →
        walk (⟨TokType.Keyword, "LEFT JOIN"⟩ :: ⟨TokType.Name, v⟩ :: rest) cur ts cs =
          walk rest (some ⟨TokType.Name, v⟩) ts cs) ∧
    (∀ (a b : String) (rest : List Token) (cur : Option Token)
        (ts : List String) (cs : List (String × String)),
        hasDot a = false → hasDot b = false →
        upperStr a ≠ "FROM" → upperStr a ≠ "JOIN" →
        walk (⟨TokType.Keyword, "FROM"⟩ :: ⟨TokType.Name, a⟩ ::
            ⟨TokType.Punctuation, ","⟩ :: ⟨TokType.Name, b⟩ :: rest) cur ts cs =
          walk rest (some ⟨TokType.Name, b⟩) (addS ts (lowerStr a)) cs) := by
  refine ⟨?_, ?_, ?_, ?_⟩
  · intro v rest cur ts cs h
    by_cases h2 : curValUpperIn cur ["SELECT"] = true
    · by_cases h3 : hasDot v = true
      · exact ⟨addP (addP cs (splitDot v)) (splitDot v), by simp [walk, h, h2, h3]⟩
      · exact ⟨cs, by simp [walk, h, h2, h3]⟩
    · by_cases h3 : hasDot v = true
      · exact ⟨addP cs (splitDot v), by simp [walk, h, h2, h3]⟩
      · exact ⟨cs, by simp [walk, h, h2, h3]⟩
  · intro v rest cur ts cs h
    by_cases h3 : hasDot v = true
    · exact ⟨addP cs (splitDot v), by simp [walk, h, h3]⟩
    · exact ⟨cs, by simp [walk, h, h3]⟩
  · intro v rest cur ts cs hd
    have h1 : curValUpperIn (some ⟨TokType.Keyword, "LEFT JOIN"⟩) ["FROM", "JOIN"] = false := by
      decide
    have h2 : curValUpperIn (some ⟨TokType.Keyword, "LEFT JOIN"⟩) ["SELECT"] = false := by
      decide
    simp [walk, h1, h2, hd]
  · intro a b rest cur ts cs hda hdb hfa hja
    have h1 : curValUpperIn (some ⟨TokType.Keyword, "FROM"⟩) ["FROM", "JOIN"] = true := by
      decide
    have h2 : curValUpperIn (some ⟨TokType.Name, a⟩) ["FROM", "JOIN"] = false := by
      simp [curValUpperIn, hfa, hja]
    simp [walk, h1, h2, hda, hdb]

/-- C10 witness: the four parts instantiated on concrete token streams. -/
theorem C10_tables_after_bare_from_join_witness :
    (∃ cs', walk [⟨TokType.Name, "x"⟩] none [] [] =
      walk [] (some ⟨TokType.Name, "x"⟩) [] cs') ∧
    (∃ cs', walk [⟨TokType.Name, "users"⟩] (some ⟨TokType.Keyword, "FROM"⟩) [] [] =
      walk [] (some ⟨TokType.Name, "users"⟩) (addS [] (lowerStr "users")) cs') ∧
    walk [⟨TokType.Keyword, "LEFT JOIN"⟩, ⟨TokType.Name, "orders"⟩] none [] [] =
      walk [] (some ⟨TokType.Name, "orders"⟩) [] [] ∧
    walk [⟨TokType.Keyword, "FROM"⟩, ⟨TokType.Name, "aaa"⟩,
        ⟨TokType.Punctuation, ","⟩, ⟨TokType.Name, "bbb"⟩] none [] [] =
      walk [] (some ⟨TokType.Name, "bbb"⟩) (addS [] (lowerStr "aaa")) [] :=
  ⟨C10_tables_after_bare_from_join.1 "x" [] none [] [] (by decide),
   C10_tables_after_bare_from_join.2.1 "users" [] (some ⟨TokType.Keyword, "FROM"⟩) [] []
     (by decide),
   C10_tables_after_bare_from_join.2.2.1 "orders" [] none [] [] (by decide),
   C10_tables_after_bare_from_join.2.2.2 "aaa" "bbb" [] none [] []
     (by decide) (by decide) (by decide) (by decide)⟩

/-- C8: the diagnostic for two invalid tables depends on the rendering
order of the Python set `invalid_tables`: under the insertion order the
message lists `aaa, bbb`, under the reversed order `bbb, aaa`, and the two
verdicts differ although both orders enumerate the same set — so the
rendered verdict is not invariant across set-iteration orders (which vary
across program runs under string-hash randomization). -/
theorem C8_set_order_dependence :
    validate_sqlWith id "SELECT x FROM aaa JOIN bbb" schema0 =
      (false, tablesMsg ["aaa", "bbb"] ["incidents", "users"]) ∧
    validate_sqlWith List.reverse "SELECT x FROM aaa JOIN bbb" schema0 =
      (false, tablesMsg ["bbb", "aaa"] ["incidents", "users"]) ∧
    validate_sqlWith id "SELECT x FROM aaa JOIN bbb" schema0 ≠
      validate_sqlWith List.reverse "SELECT x FROM aaa JOIN bbb" schema0 ∧
    (["bbb", "aaa"] : List String).Perm ["aaa", "bbb"] := by
  refine ⟨?_, ?_, ?_, by decide⟩
  · decide
  · decide
  · decide

end Text2SQL
